import Mathlib

/-!
Shallow embedding of `day11/main.py` (Advent of Code 2022, day 11: the
monkey item-passing simulation), together with proofs about the embedded
program.

Python objects are modelled as follows:
* a `Monkey` object is a Lean structure; the mutable monkey list owned by
  `MonkeyClub` is a `List Monkey`, and mutation is explicit state passing
  (every operation consumes a club and returns the updated club);
* the operation closure built by `ChunkToMonkeyInterpreter._get_operation`
  is defunctionalised into the pair `(Operator, Operand)` it captures;
* Python exceptions (`AttributeError`, `AssertionError`, `IndexError`)
  become the `PyError` inductive and fallible code returns `Except`/`Option`;
* Python `for` loops over lists that may grow during iteration are modelled
  with an explicit cursor plus a fuel parameter (the Python loop can in
  principle diverge when a monkey throws to itself; `none` covers both the
  out-of-fuel artifact and the `IndexError` of an invalid destination).
-/

/-- The operator captured by the closure in
`ChunkToMonkeyInterpreter._get_operation`: the regex group `([+*])`. -/
inductive Operator where
  | add
  | mul
deriving DecidableEq, Repr

/-- The second operand captured by the closure in
`ChunkToMonkeyInterpreter._get_operation`: the regex group `((old)|(\d+))`,
either the literal token `old` or a non-negative integer literal. -/
inductive Operand where
  | old
  | lit (n : Nat)
deriving DecidableEq, Repr

/-- Body of the `operation` closure returned by
`ChunkToMonkeyInterpreter._get_operation` (main.py lines 54-74):
`new = old + second` or `new = old * second`, where `second` is either the
current value (`old`) or the parsed literal. -/
def applyOperation (op : Operator) (operand : Operand) (old_value : Nat) : Nat :=
  let second := match operand with
    | Operand.old => old_value
    | Operand.lit n => n
  match op with
  | Operator.add => old_value + second
  | Operator.mul => old_value * second

/-- Round `n / d` (for `d > 0`) to the nearest integer, ties to even: the
rounding used by IEEE-754 binary64 arithmetic, needed to model the Python
true-division expression `item/3` in `Monkey._inspect` (main.py line 127). -/
def roundHalfEven (n d : Nat) : Nat :=
  let q := n / d
  let r := n % d
  if 2 * r < d then q
  else if d < 2 * r then q + 1
  else if q % 2 = 0 then q else q + 1

/-- Fuel-driven floor-of-log2 helper (`floorLog2Aux fuel n` with `fuel ≥ n`
computes `⌊log₂ n⌋` for `n ≥ 1`); written with structural recursion on the
fuel so that concrete values reduce by `decide`/`rfl`. -/
def floorLog2Aux : Nat → Nat → Nat
  | 0, _ => 0
  | fuel + 1, n => if n < 2 then 0 else floorLog2Aux fuel (n / 2) + 1

/-- Floor of log2: `⌊log₂ n⌋` for `n ≥ 1` (and `0` for `n = 0`). -/
def floorLog2 (n : Nat) : Nat :=
  floorLog2Aux n n

/-- Value half of the Python expression `Item(item/3)` in
`Monkey._inspect` (main.py line 127).  In CPython, `item/3` on `int`s is
TRUE division: it produces the IEEE-754 binary64 float nearest to the
exact rational `item/3` (round to nearest, ties to even), and
`Item(...)`, being an `int` subclass, then truncates that float toward
zero.  For a non-negative quotient `q = w/3` with `2^e ≤ q < 2^(e+1)`
the binary64 grid spacing is `2^(e-52)`, so the correctly rounded float
is the nearest multiple of `2^(e-52)` (ties to even), and truncation is
floor.  This function computes that rounding with an unbounded exponent
range; `pyTrueDiv3` below adds the finite-range check (`OverflowError`)
and is the full model of `Item(item/3)`.  Note the result is NOT in
general the floor division `w / 3`: once the quotient reaches `2^52` the
grid spacing is `≥ 1` and rounding can go up. -/
def pyIntDiv3 (w : Nat) : Nat :=
  if w < 3 then 0
  else
    let e := floorLog2 (w / 3)
    if 52 ≤ e then
      let s := 2 ^ (e - 52)
      roundHalfEven w (3 * s) * s
    else
      roundHalfEven (w * 2 ^ (52 - e)) 3 / 2 ^ (52 - e)

/-- Full model of `Item(item/3)` (main.py line 127): CPython raises
`OverflowError` when the correctly rounded quotient (computed with
round-to-nearest-even as if the exponent range were unbounded) reaches
`2^1024`, i.e. falls outside the binary64 finite range; otherwise the
truncated quotient is stored.  Overflow is reachable here: a parsed
starting item of roughly 310 digits makes `item/3` non-finite. -/
def pyTrueDiv3 (w : Nat) : Option Nat :=
  if 2 ^ 1024 ≤ pyIntDiv3 w then none else some (pyIntDiv3 w)

/-- A `Monkey` object (main.py lines 102-144) after construction: the
fields set by `Monkey.__init__` from the six-line chunk.  `id` is the raw
digit string, because `ChunkToMonkeyInterpreter._get_id` returns
`m.group(1)` without converting it to `int`.  The `_monkey_club` back
reference is not a field: the club is passed explicitly to every
operation. -/
structure Monkey where
  id : String
  items : List Nat
  op : Operator
  operand : Operand
  divisor : Nat
  true_destination : Nat
  false_destination : Nat
  inspections_count : Nat
deriving DecidableEq, Repr

/-- The ordered monkey list owned by `MonkeyClub` (main.py line 150). -/
abbrev MonkeyClub := List Monkey

/-- Model of `Monkey._inspect` (main.py lines 123-138) for the monkey at
index `i` of the club inspecting worry value `item`:
increment `inspections_count`, apply the operation, divide by 3 via
`Item(item/3)`, test divisibility, and append the new value to the
destination monkey's item list.  `none` models the exceptions this body
can raise, in the order Python hits them: `OverflowError` from
`Item(item/3)` when the quotient leaves the binary64 range (line 127),
`ZeroDivisionError` from `item % divisor` when the parsed divisor is `0`
(line 82, reachable because `Test: divisible by 0` matches the test
grammar), and `IndexError` from `MonkeyClub.get_monkey` — a plain list
index — when a destination is out of range (line 156). -/
def MonkeyClub.inspect (club : MonkeyClub) (i : Nat) (item : Nat) : Option MonkeyClub :=
  match club[i]? with
  | none => none
  | some m =>
    let club1 := club.set i { m with inspections_count := m.inspections_count + 1 }
    let item1 := applyOperation m.op m.operand item
    match pyTrueDiv3 item1 with
    | none => none
    | some item2 =>
      if m.divisor = 0 then none
      else
        let dest := if item2 % m.divisor = 0 then m.true_destination else m.false_destination
        match club1[dest]? with
        | none => none
        | some md => some (club1.set dest { md with items := md.items ++ [item2] })

/-- Model of the `for item in self._items` loop of `Monkey.execute_round`
(main.py lines 117-121).  Python's list iterator keeps a cursor into the
live list object, so items appended to this monkey mid-loop (a self-throw)
are also iterated; `fuel` bounds the number of iterations (the Python loop
may diverge on a self-throw).  When the cursor runs off the end, the
monkey's own item list is replaced by `[]` (line 121). -/
def MonkeyClub.turn : Nat → MonkeyClub → Nat → Nat → Option MonkeyClub
  | 0, _, _, _ => none
  | fuel + 1, club, i, cursor =>
    match club[i]? with
    | none => none
    | some m =>
      match m.items[cursor]? with
      | some item =>
        match club.inspect i item with
        | none => none
        | some club2 => MonkeyClub.turn fuel club2 i (cursor + 1)
      | none => some (club.set i { m with items := [] })

/-- Model of `Monkey.execute_round` (main.py lines 117-121): run the item
loop from cursor 0. -/
def MonkeyClub.monkey_execute_round (fuel : Nat) (club : MonkeyClub) (i : Nat) :
    Option MonkeyClub :=
  MonkeyClub.turn fuel club i 0

/-- Run `Monkey.execute_round` for each index in the given list in order
(helper for `MonkeyClub.execute_round`). -/
def MonkeyClub.turns (fuel : Nat) : List Nat → MonkeyClub → Option MonkeyClub
  | [], club => some club
  | i :: is, club =>
    match MonkeyClub.monkey_execute_round fuel club i with
    | none => none
    | some club2 => MonkeyClub.turns fuel is club2

/-- Model of `MonkeyClub.execute_round` (main.py lines 158-167): every
monkey runs exactly once, in ascending index order over the list as it
stood when the round began (its length never changes during a round). -/
def MonkeyClub.execute_round (fuel : Nat) (club : MonkeyClub) : Option MonkeyClub :=
  MonkeyClub.turns fuel (List.range club.length) club

/-- The `for round_number in range(1, 21)` loop of `part1` generalised to
`n` rounds (main.py lines 180-181); the round number is only printed. -/
def MonkeyClub.run_rounds (fuel : Nat) : Nat → MonkeyClub → Option MonkeyClub
  | 0, club => some club
  | n + 1, club =>
    match MonkeyClub.execute_round fuel club with
    | none => none
    | some club2 => MonkeyClub.run_rounds fuel n club2

/-- The Python exceptions the program can raise. `attributeError` is the
`AttributeError` from calling `.group(1)` on the `None` returned by a
failed `re.match`; `assertionFailed` is `AssertionError`, carrying the
offending line when raised by `assert m, line` and nothing when raised by
the bare `assert new_chunk == []`; `indexError` is `IndexError` from list
indexing out of range. -/
inductive PyError where
  | attributeError
  | assertionFailed (msg : Option String)
  | indexError
deriving DecidableEq, Repr

instance {ε α : Type} [DecidableEq ε] [DecidableEq α] : DecidableEq (Except ε α) :=
  fun a b =>
    match a, b with
    | Except.ok x, Except.ok y =>
      if h : x = y then Decidable.isTrue (congrArg Except.ok h)
      else Decidable.isFalse (fun hc => h (Except.ok.inj hc))
    | Except.error x, Except.error y =>
      if h : x = y then Decidable.isTrue (congrArg Except.error h)
      else Decidable.isFalse (fun hc => h (Except.error.inj hc))
    | Except.ok _, Except.error _ => Decidable.isFalse (fun hc => Except.noConfusion hc)
    | Except.error _, Except.ok _ => Decidable.isFalse (fun hc => Except.noConfusion hc)

/-- Model of `MonkeyClub.get_monkey_business` (main.py lines 169-174):
collect every monkey's `inspections_count`, sort ascending (Python
`list.sort`; on `Nat` any ascending sort of the same multiset is the same
list, so insertion sort is used), and return
`sorted[-1] * sorted[-2]`.  Python's negative indexing raises `IndexError`
when the element does not exist: `[-1]` needs a non-empty list and `[-2]`
needs at least two elements. -/
def MonkeyClub.get_monkey_business (club : MonkeyClub) : Except PyError Nat :=
  let sorted := List.insertionSort (· ≤ ·) (club.map (fun m => m.inspections_count))
  match sorted.getLast? with
  | none => Except.error PyError.indexError
  | some last =>
    match sorted.dropLast.getLast? with
    | none => Except.error PyError.indexError
    | some second => Except.ok (last * second)

/-! ### Text parsing (`ChunkToMonkeyInterpreter`, `load_file_chunks`) -/

/-- The whitespace characters stripped by Python's `str.strip()` and
matched by the regex class `\s` (ASCII range, which covers this program's
inputs): space, tab, newline, carriage return, vertical tab, form feed. -/
def isPySpace (c : Char) : Bool :=
  c = ' ' || c = '\t' || c = '\n' || c = '\r' || c = Char.ofNat 11 || c = Char.ofNat 12

/-- Python `line.strip()`: remove leading and trailing whitespace. -/
def pyStrip (s : String) : String :=
  String.mk (((s.data.dropWhile isPySpace).reverse.dropWhile isPySpace).reverse)

/-- Match a literal character sequence at the head of the input, returning
the rest (building block for the anchored literal parts of the regexes). -/
def dropLit : List Char → List Char → Option (List Char)
  | [], cs => some cs
  | _ :: _, [] => none
  | p :: ps, c :: cs => if c = p then dropLit ps cs else none

/-- Greedily match `\d+` at the head of the input: the nonempty run of
leading ASCII digits and the rest of the input. -/
def takeDigits1 (cs : List Char) : Option (List Char × List Char) :=
  let ds := cs.takeWhile Char.isDigit
  if ds.isEmpty then none else some (ds, cs.drop ds.length)

/-- Value of a digit string (what Python's `int(...)` returns on it). -/
def digitsToNat (cs : List Char) : Nat :=
  cs.foldl (fun acc c => acc * 10 + (c.toNat - 48)) 0

/-- Model of `re.match(r'Monkey (\d+):$', line)` followed by `m.group(1)`
in `ChunkToMonkeyInterpreter._get_id` (main.py lines 37-40): the captured
digit group is returned as a STRING (the source never converts it). -/
def matchMonkeyIdLine (s : String) : Option String := do
  let r1 ← dropLit ("Monkey ".data) s.data
  let (ds, r2) ← takeDigits1 r1
  let r3 ← dropLit (":".data) r2
  if r3 = [] then some (String.mk ds) else none

/-- Tail of the starting-items list: zero or more repetitions of
`, \d+`, which must consume the whole rest of the line (the regex is
`$`-anchored).  Fuel-driven; `cs.length` is always enough fuel. -/
def itemsTailAux : Nat → List Nat → List Char → Option (List Nat)
  | _, acc, [] => some acc
  | 0, _, _ :: _ => none
  | fuel + 1, acc, cs => do
    let r1 ← dropLit (", ".data) cs
    let (ds, r2) ← takeDigits1 r1
    itemsTailAux fuel (acc ++ [digitsToNat ds]) r2

/-- Model of `re.match(r'^\s*Starting items: (\d+(, \d+)*)$', line)`
followed by splitting group 1 on `', '` and converting to `Item`, in
`ChunkToMonkeyInterpreter._get_starting_items` (main.py lines 42-47). -/
def matchStartingItems (s : String) : Option (List Nat) := do
  let rest := s.data.dropWhile isPySpace
  let r1 ← dropLit ("Starting items: ".data) rest
  let (ds, r2) ← takeDigits1 r1
  itemsTailAux r2.length [digitsToNat ds] r2

/-- The operand alternative `((old)|(\d+))$` of the operation regex. -/
def matchOperand (cs : List Char) : Option Operand :=
  if cs = "old".data then some Operand.old
  else
    match takeDigits1 cs with
    | some (ds, []) => some (Operand.lit (digitsToNat ds))
    | _ => none

/-- Model of `re.match(r'^\s*Operation: new = old ([+*]) ((old)|(\d+))$', line)`
in `ChunkToMonkeyInterpreter._get_operation` (main.py lines 49-53),
capturing the operator and second operand that the returned closure uses. -/
def matchOperation (s : String) : Option (Operator × Operand) := do
  let rest := s.data.dropWhile isPySpace
  let r1 ← dropLit ("Operation: new = old ".data) rest
  match r1 with
  | [] => none
  | c :: r2 =>
    let op ← if c = '+' then some Operator.add
             else if c = '*' then some Operator.mul
             else none
    let r3 ← dropLit (" ".data) r2
    let operand ← matchOperand r3
    some (op, operand)

/-- Model of `re.match(r'Test: divisible by (\d+)', line)` followed by
`int(m.group(1))` in `ChunkToMonkeyInterpreter._get_test` (main.py lines
77-80).  Note this regex has no `\s*` prefix and no `$` anchor: trailing
characters after the digits are allowed. -/
def matchTest (s : String) : Option Nat := do
  let r1 ← dropLit ("Test: divisible by ".data) s.data
  let (ds, _) ← takeDigits1 r1
  some (digitsToNat ds)

/-- Model of `re.match(r'^\s*If true: throw to monkey (\d+)$', line)` in
`ChunkToMonkeyInterpreter._get_if_true_destination` (main.py lines 91-94). -/
def matchIfTrue (s : String) : Option Nat := do
  let r1 ← dropLit ("If true: throw to monkey ".data) (s.data.dropWhile isPySpace)
  let (ds, r2) ← takeDigits1 r1
  if r2 = [] then some (digitsToNat ds) else none

/-- Model of `re.match(r'^\s*If false: throw to monkey (\d+)$', line)` in
`ChunkToMonkeyInterpreter._get_if_false_destination` (main.py lines 96-99). -/
def matchIfFalse (s : String) : Option Nat := do
  let r1 ← dropLit ("If false: throw to monkey ".data) (s.data.dropWhile isPySpace)
  let (ds, r2) ← takeDigits1 r1
  if r2 = [] then some (digitsToNat ds) else none

/-- Model of `Monkey.__init__` (main.py lines 103-115) interpreting a file
chunk.  The six lines are checked in source order (id, starting items,
operation, test, if-true, if-false).  A line that fails its regex makes
`m.group(1)` raise `AttributeError` — except the starting-items line,
whose `assert m, line` raises `AssertionError` carrying the offending
line.  A chunk shorter than six lines raises `IndexError` at the first
missing line. -/
def parseMonkey (chunk : List String) : Except PyError Monkey :=
  match chunk[0]? with
  | none => Except.error PyError.indexError
  | some l0 =>
    match matchMonkeyIdLine l0 with
    | none => Except.error PyError.attributeError
    | some idStr =>
      match chunk[1]? with
      | none => Except.error PyError.indexError
      | some l1 =>
        match matchStartingItems l1 with
        | none => Except.error (PyError.assertionFailed (some l1))
        | some items =>
          match chunk[2]? with
          | none => Except.error PyError.indexError
          | some l2 =>
            match matchOperation l2 with
            | none => Except.error PyError.attributeError
            | some opPair =>
              match chunk[3]? with
              | none => Except.error PyError.indexError
              | some l3 =>
                match matchTest l3 with
                | none => Except.error PyError.attributeError
                | some divisor =>
                  match chunk[4]? with
                  | none => Except.error PyError.indexError
                  | some l4 =>
                    match matchIfTrue l4 with
                    | none => Except.error PyError.attributeError
                    | some tdest =>
                      match chunk[5]? with
                      | none => Except.error PyError.indexError
                      | some l5 =>
                        match matchIfFalse l5 with
                        | none => Except.error PyError.attributeError
                        | some fdest =>
                          Except.ok
                            { id := idStr
                              items := items
                              op := opPair.1
                              operand := opPair.2
                              divisor := divisor
                              true_destination := tdest
                              false_destination := fdest
                              inspections_count := 0 }

/-- The accumulator loop of `load_file_chunks` (main.py lines 199-208):
`chunks` and `new_chunk` are the two local lists; each non-blank line is
stripped and appended to `new_chunk`, each blank line flushes `new_chunk`
(possibly empty) onto `chunks`; at end of input, `assert new_chunk == []`
raises a bare `AssertionError` if lines remain unflushed. -/
def loadFileChunksAux (chunks : List (List String)) (new_chunk : List String) :
    List String → Except PyError (List (List String))
  | [] =>
    if new_chunk = [] then Except.ok chunks
    else Except.error (PyError.assertionFailed none)
  | l :: ls =>
    if pyStrip l ≠ "" then loadFileChunksAux chunks (new_chunk ++ [pyStrip l]) ls
    else loadFileChunksAux (chunks ++ [new_chunk]) [] ls

/-- Model of `load_file_chunks` (main.py lines 190-208) applied to the
list of lines `readlines()` produced from the input file. -/
def load_file_chunks (lines : List String) : Except PyError (List (List String)) :=
  loadFileChunksAux [] [] lines

/-- Model of `initialize_monkey_club` (main.py lines 211-215) given the
current contents of the `MonkeyClub.__init__` default-argument list.
`MonkeyClub()` binds `self._monkeys` to the ONE default list object
created when the `def` was evaluated (the classic Python mutable-default
pitfall), so the new club starts with whatever monkeys previous calls left
in that list (`shared`), and `add_monkey` appends each parsed monkey.  The
returned list is also the new state of the shared default list. -/
def build_monkey_club (shared : List Monkey) :
    List (List String) → Except PyError MonkeyClub
  | [] => Except.ok shared
  | chunk :: rest =>
    match parseMonkey chunk with
    | Except.error e => Except.error e
    | Except.ok m => build_monkey_club (shared ++ [m]) rest

/-- Model of `part1` (main.py lines 176-182) with the process state made
explicit: `shared` is the current contents of the `MonkeyClub.__init__`
default list and `lines` the contents of the input file.  Returns the
monkey list after the 20 rounds (which is also the new state of the
shared default list), the per-monkey inspection counts printed by
`get_monkey_business` (line 172), and the monkey-business score.  `fuel`
bounds each monkey's item loop; `none` from the simulation (invalid
destination index, i.e. Python `IndexError`, or out of fuel) is reported
as `indexError`. -/
def part1 (fuel : Nat) (shared : List Monkey) (lines : List String) :
    Except PyError (MonkeyClub × List Nat × Nat) := do
  let chunks ← load_file_chunks lines
  let club ← build_monkey_club shared chunks
  match MonkeyClub.run_rounds fuel 20 club with
  | none => Except.error PyError.indexError
  | some club20 =>
    let counts := club20.map (fun m => m.inspections_count)
    let mb ← MonkeyClub.get_monkey_business club20
    Except.ok (club20, counts, mb)

/-- Whether an `Except` computation succeeded. -/
def exceptIsOk {ε α : Type} : Except ε α → Bool
  | Except.ok _ => true
  | Except.error _ => false

/-- The segments of a line list delimited by its blank lines, with each
stored line stripped: head-recursive restatement of what
`load_file_chunks`'s accumulator loop builds.  There is always one
(possibly empty) segment per blank line plus a final segment holding the
stripped non-blank lines after the last blank line. -/
def blankSplit : List String → List (List String)
  | [] => [[]]
  | l :: ls =>
    let rest := blankSplit ls
    if pyStrip l = "" then [] :: rest
    else (pyStrip l :: rest.headD []) :: rest.tail

/-- The chunk list the claim describes, built from its own words: one
chunk per MAXIMAL run of non-blank lines (so no empty chunks), each
chunk's lines stripped. -/
def c9ClaimChunks (lines : List String) : List (List String) :=
  ((lines.splitOnP (fun l => pyStrip l == "")).filter (fun c => ¬ c.isEmpty)).map
    (fun c => c.map pyStrip)

/-- Two `Monkey`s that agree on every field except possibly `id` (the
digit string from the `Monkey <id>:` header, used only in debug output). -/
def sameExceptId (a b : Monkey) : Prop :=
  a.items = b.items ∧ a.op = b.op ∧ a.operand = b.operand ∧ a.divisor = b.divisor ∧
  a.true_destination = b.true_destination ∧ a.false_destination = b.false_destination ∧
  a.inspections_count = b.inspections_count

/-- Two parsed chunks that differ at most in their header line, both of
which match the `Monkey <id>:` grammar. -/
abbrev chunkRel (c c' : List String) : Prop :=
  c.tail = c'.tail ∧ c ≠ [] ∧ c' ≠ [] ∧
  (matchMonkeyIdLine (c.headD "")).isSome = true ∧
  (matchMonkeyIdLine (c'.headD "")).isSome = true

/-- Modelled from the spec: the input file `sample.txt` that
`load_file_chunks(use_sample=True)` reads is not part of the sources;
these are its lines per the spec — the four-Monkey sample configuration
of the standard puzzle statement (spec section 8's example names monkey
0's exact configuration), one six-line block per monkey separated by
blank lines (spec section 6), with a final blank line so that the
loader's trailing `assert` passes. -/
def sampleLines : List String :=
  [ "Monkey 0:\n"
  , "  Starting items: 79, 98\n"
  , "  Operation: new = old * 19\n"
  , "  Test: divisible by 23\n"
  , "    If true: throw to monkey 2\n"
  , "    If false: throw to monkey 3\n"
  , "\n"
  , "Monkey 1:\n"
  , "  Starting items: 54, 65, 75, 74\n"
  , "  Operation: new = old + 6\n"
  , "  Test: divisible by 19\n"
  , "    If true: throw to monkey 2\n"
  , "    If false: throw to monkey 0\n"
  , "\n"
  , "Monkey 2:\n"
  , "  Starting items: 79, 60, 97\n"
  , "  Operation: new = old * old\n"
  , "  Test: divisible by 13\n"
  , "    If true: throw to monkey 1\n"
  , "    If false: throw to monkey 3\n"
  , "\n"
  , "Monkey 3:\n"
  , "  Starting items: 74\n"
  , "  Operation: new = old + 3\n"
  , "  Test: divisible by 17\n"
  , "    If true: throw to monkey 0\n"
  , "    If false: throw to monkey 1\n"
  , "\n" ]

/-! ### Helper lemmas about the simulation step -/

/-- Setting a list index to the value it already holds is the identity. -/
theorem list_set_same {α : Type} {l : List α} {i : Nat} {a : α}
    (h : l[i]? = some a) : l.set i a = l := by
  apply List.ext_getElem?
  intro n
  by_cases hn : i = n
  · subst hn
    rw [List.getElem?_set_self (List.getElem?_eq_some.mp h).1, h]
  · rw [List.getElem?_set_ne hn]

set_option maxRecDepth 10000 in
/-- Sanity check of the modelled error paths: a monkey parsed from
`Test: divisible by 0` raises `ZeroDivisionError` at `item % 0`
(main.py line 82) — the inspection aborts instead of routing the item. -/
theorem inspect_zero_divisor_raises :
    MonkeyClub.inspect
      [⟨"0", [1], Operator.add, Operand.lit 0, 0, 0, 0, 0⟩] 0 1 = none := by
  decide

set_option maxRecDepth 10000 in
/-- Sanity check of the modelled error paths: a starting item of about
370 digits makes `Item(item/3)` (main.py line 127) raise
`OverflowError`, because the binary64 quotient is non-finite — the
inspection aborts instead of storing a value. -/
theorem inspect_overflow_raises :
    MonkeyClub.inspect
      [⟨"0", [10 ^ 370], Operator.add, Operand.lit 0, 3, 0, 0, 0⟩] 0 (10 ^ 370) = none := by
  decide

/-- One `Monkey._inspect` call, characterised: when the division does
not overflow, the divisor is non-zero and the destination `d` resolved by
the test is a valid index different from the inspecting monkey's own
index, the club is updated by bumping the inspector's count and appending
the processed worry value to `d`'s queue. -/
theorem inspect_of_dest {club : MonkeyClub} {i : Nat} {m md : Monkey} {w : Nat} {d : Nat}
    (hm : club[i]? = some m)
    (hnov : pyIntDiv3 (applyOperation m.op m.operand w) < 2 ^ 1024)
    (hdz : m.divisor ≠ 0)
    (hd : (if pyIntDiv3 (applyOperation m.op m.operand w) % m.divisor = 0 then
            m.true_destination else m.false_destination) = d)
    (hdi : d ≠ i)
    (hmd : club[d]? = some md) :
    MonkeyClub.inspect club i w = some
      ((club.set i { m with inspections_count := m.inspections_count + 1 }).set d
        { md with items := md.items ++ [pyIntDiv3 (applyOperation m.op m.operand w)] }) := by
  have hdiv3 : pyTrueDiv3 (applyOperation m.op m.operand w)
      = some (pyIntDiv3 (applyOperation m.op m.operand w)) := by
    rw [pyTrueDiv3, if_neg (Nat.not_le.mpr hnov)]
  have hset : (club.set i { m with inspections_count := m.inspections_count + 1 })[d]?
      = some md := by
    rw [List.getElem?_set_ne (Ne.symm hdi), hmd]
  simp only [MonkeyClub.inspect, hm, hdiv3, hdz, ite_false, hd, hset, if_neg]

/-- The item loop of `Monkey.execute_round` for a monkey that never
throws to itself: starting from any cursor position, the loop terminates
(given enough fuel), the monkey's queue ends empty, its inspection count
grows by exactly the number of items from the cursor on, and the club
keeps its length. -/
theorem turn_no_self_throw :
    ∀ (fuel : Nat) (club : MonkeyClub) (cursor : Nat) (i : Nat) (m : Monkey),
      club[i]? = some m →
      m.true_destination ≠ i → m.false_destination ≠ i →
      m.true_destination < club.length → m.false_destination < club.length →
      m.divisor ≠ 0 →
      (∀ w ∈ m.items, pyIntDiv3 (applyOperation m.op m.operand w) < 2 ^ 1024) →
      m.items.length - cursor < fuel →
      ∃ club2, MonkeyClub.turn fuel club i cursor = some club2 ∧
        club2.length = club.length ∧
        club2[i]? = some { m with
          items := [],
          inspections_count := m.inspections_count + (m.items.length - cursor) } := by
  intro fuel
  induction fuel with
  | zero => intro club cursor i m _ _ _ _ _ _ _ hfuel; omega
  | succ fuel ih =>
    intro club cursor i m hm ht hf htl hfl hdz hnov hfuel
    by_cases hcur : cursor < m.items.length
    · -- the loop body runs: one `_inspect`, then the recursive call
      have hitem : m.items[cursor]? = some (m.items[cursor]) :=
        List.getElem?_eq_getElem hcur
      set w := m.items[cursor] with hw
      set d := (if pyIntDiv3 (applyOperation m.op m.operand w) % m.divisor = 0 then
            m.true_destination else m.false_destination) with hdef
      have hdi : d ≠ i := by
        rw [hdef]; split
        · exact ht
        · exact hf
      have hdl : d < club.length := by
        rw [hdef]; split
        · exact htl
        · exact hfl
      have hmdex : ∃ md, club[d]? = some md := ⟨club[d], List.getElem?_eq_getElem hdl⟩
      obtain ⟨md, hmd⟩ := hmdex
      have hwmem : w ∈ m.items := List.getElem?_mem hitem
      have hins := inspect_of_dest hm (hnov w hwmem) hdz hdef.symm hdi hmd
      have hil : i < club.length := (List.getElem?_eq_some.mp hm).1
      set m1 : Monkey := { m with inspections_count := m.inspections_count + 1 } with hm1
      set club2' : MonkeyClub :=
        (club.set i m1).set d
          { md with items := md.items ++ [pyIntDiv3 (applyOperation m.op m.operand w)] }
        with hclub2'
      have hm2 : club2'[i]? = some m1 := by
        rw [hclub2', List.getElem?_set_ne hdi, List.getElem?_set_self hil]
      have hlen2 : club2'.length = club.length := by
        rw [hclub2', List.length_set, List.length_set]
      have hstep := ih club2' (cursor + 1) i m1 hm2
        (by rw [hm1]; exact ht) (by rw [hm1]; exact hf)
        (by rw [hlen2, hm1]; exact htl) (by rw [hlen2, hm1]; exact hfl)
        (by rw [hm1]; exact hdz) (by rw [hm1]; exact hnov)
        (by simp only [hm1]; omega)
      obtain ⟨club2, hrun, hlen, hentry⟩ := hstep
      refine ⟨club2, ?_, by rw [← hlen2]; exact hlen, ?_⟩
      · simp only [MonkeyClub.turn, hm, hitem, hins]
        exact hrun
      · have harith : m.inspections_count + 1 + (m.items.length - (cursor + 1))
            = m.inspections_count + (m.items.length - cursor) := by omega
        simp only [hm1] at hentry
        simpa [harith] using hentry
    · have hnone : m.items[cursor]? = none := by
        rw [List.getElem?_eq_none]
        omega
      have hil : i < club.length := (List.getElem?_eq_some.mp hm).1
      refine ⟨club.set i { m with items := [] }, ?_, List.length_set .., ?_⟩
      · simp only [MonkeyClub.turn, hm, hnone]
      · rw [List.getElem?_set_self hil]
        have : m.items.length - cursor = 0 := by omega
        simp [this]

/-- C3: a Monkey that does not throw to itself (both destinations differ
from its own index; destinations valid, which the spec treats as a
parse-time assumption), whose divisor is non-zero and whose items never
make the division-by-3 step overflow — the inputs on which
`Monkey.execute_round` raises no exception — after one
`Monkey.execute_round` has an empty item queue and an
`inspections_count` increased by exactly the number of items it held
before the call; with zero items held this leaves the count unchanged
(the `+ m.items.length` term is `+ 0`). -/
theorem claim_C3 (fuel : Nat) (club : MonkeyClub) (i : Nat) (m : Monkey)
    (hm : club[i]? = some m)
    (ht : m.true_destination ≠ i) (hf : m.false_destination ≠ i)
    (htl : m.true_destination < club.length) (hfl : m.false_destination < club.length)
    (hdz : m.divisor ≠ 0)
    (hnov : ∀ w ∈ m.items, pyIntDiv3 (applyOperation m.op m.operand w) < 2 ^ 1024)
    (hfuel : m.items.length < fuel) :
    ∃ club2, MonkeyClub.monkey_execute_round fuel club i = some club2 ∧
      club2[i]? = some { m with
        items := [],
        inspections_count := m.inspections_count + m.items.length } := by
  obtain ⟨club2, hrun, _, hentry⟩ :=
    turn_no_self_throw fuel club 0 i m hm ht hf htl hfl hdz hnov (by omega)
  exact ⟨club2, hrun, by simpa using hentry⟩

set_option maxRecDepth 10000 in
/-- Witness for C3 at a concrete two-monkey club. -/
theorem claim_C3_witness :
    ∃ club2,
      MonkeyClub.monkey_execute_round 5
        [⟨"0", [5, 8], Operator.mul, Operand.lit 2, 3, 1, 1, 4⟩,
         ⟨"1", [], Operator.add, Operand.lit 1, 2, 0, 0, 0⟩] 0 = some club2 ∧
      club2[0]? = some ⟨"0", [], Operator.mul, Operand.lit 2, 3, 1, 1, 4 + 2⟩ :=
  claim_C3 5
    [⟨"0", [5, 8], Operator.mul, Operand.lit 2, 3, 1, 1, 4⟩,
     ⟨"1", [], Operator.add, Operand.lit 1, 2, 0, 0, 0⟩] 0
    ⟨"0", [5, 8], Operator.mul, Operand.lit 2, 3, 1, 1, 4⟩
    rfl (by decide) (by decide) (by decide) (by decide) (by decide) (by decide)
    (by decide)

set_option maxRecDepth 4000 in
/-- The item loop of `Monkey.execute_round` for a monkey whose two
destinations are the same other monkey `d`: the loop terminates (given
enough fuel) with the inspecting monkey's queue cleared and its count
bumped, and with every item from the cursor on processed (operation, then
division by 3) and appended, in order, to `d`'s queue. -/
theorem turn_single_dest :
    ∀ (fuel : Nat) (club : MonkeyClub) (cursor : Nat) (i d : Nat) (m md : Monkey),
      club[i]? = some m → club[d]? = some md →
      m.true_destination = d → m.false_destination = d → d ≠ i →
      m.divisor ≠ 0 →
      (∀ w ∈ m.items, pyIntDiv3 (applyOperation m.op m.operand w) < 2 ^ 1024) →
      m.items.length - cursor < fuel →
      MonkeyClub.turn fuel club i cursor = some
        ((club.set i { m with
            items := [],
            inspections_count := m.inspections_count + (m.items.length - cursor) }).set d
          { md with items := md.items ++ (m.items.drop cursor).map
                        (fun w => pyIntDiv3 (applyOperation m.op m.operand w)) }) := by
  intro fuel
  induction fuel with
  | zero => intro club cursor i d m md _ _ _ _ _ _ _ hfuel; omega
  | succ fuel ih =>
    intro club cursor i d m md hm hmd ht hf hdi hdz hnov hfuel
    have hil : i < club.length := (List.getElem?_eq_some.mp hm).1
    have hdl : d < club.length := (List.getElem?_eq_some.mp hmd).1
    by_cases hcur : cursor < m.items.length
    · have hitem : m.items[cursor]? = some (m.items[cursor]) :=
        List.getElem?_eq_getElem hcur
      have hdd : (if pyIntDiv3 (applyOperation m.op m.operand (m.items[cursor]))
            % m.divisor = 0 then m.true_destination else m.false_destination) = d := by
        rw [ht, hf, ite_self]
      have hwmem : m.items[cursor] ∈ m.items := List.getElem?_mem hitem
      have hins := inspect_of_dest hm (hnov _ hwmem) hdz hdd hdi hmd
      have hm2 :
          ((club.set i { m with inspections_count := m.inspections_count + 1 }).set d
            { md with items := md.items ++
                        [pyIntDiv3 (applyOperation m.op m.operand (m.items[cursor]))] })[i]?
          = some { m with inspections_count := m.inspections_count + 1 } := by
        rw [List.getElem?_set_ne hdi, List.getElem?_set_self hil]
      have hmd2 :
          ((club.set i { m with inspections_count := m.inspections_count + 1 }).set d
            { md with items := md.items ++
                        [pyIntDiv3 (applyOperation m.op m.operand (m.items[cursor]))] })[d]?
          = some { md with items := md.items ++
                        [pyIntDiv3 (applyOperation m.op m.operand (m.items[cursor]))] } := by
        rw [List.getElem?_set_self (by rw [List.length_set]; exact hdl)]
      have hstep := ih _ (cursor + 1) i d
        { m with inspections_count := m.inspections_count + 1 }
        { md with items := md.items ++
                        [pyIntDiv3 (applyOperation m.op m.operand (m.items[cursor]))] }
        hm2 hmd2 ht hf hdi hdz hnov (by simp only []; omega)
      simp only [MonkeyClub.turn, hm, hitem, hins]
      rw [hstep]
      congr 1
      rw [List.set_comm _ _ _ hdi, List.set_set, List.set_set]
      have hcount : m.inspections_count + 1 + (m.items.length - (cursor + 1))
          = m.inspections_count + (m.items.length - cursor) := by omega
      show (club.set i { m with items := ([] : List Nat), inspections_count := m.inspections_count + 1 + (m.items.length - (cursor + 1)) }).set d { md with items := (md.items ++ [pyIntDiv3 (applyOperation m.op m.operand (m.items[cursor]))]) ++ List.map (fun w => pyIntDiv3 (applyOperation m.op m.operand w)) (List.drop (cursor + 1) m.items) } = _
      rw [hcount, List.append_assoc, List.singleton_append,
        List.drop_eq_getElem_cons hcur, List.map_cons]
    · have hnone : m.items[cursor]? = none := by
        rw [List.getElem?_eq_none]
        omega
      simp only [MonkeyClub.turn, hm, hnone]
      have hzero : m.items.length - cursor = 0 := by omega
      have hdrop : m.items.drop cursor = [] := List.drop_eq_nil_of_le (by omega)
      rw [hzero, hdrop]
      have hmrec : ({ m with
              items := ([] : List Nat),
              inspections_count := m.inspections_count + 0 } : Monkey)
          = { m with items := ([] : List Nat) } := by simp
      have hmdrec : ({ md with items := md.items ++ List.map (fun w => pyIntDiv3 (applyOperation m.op m.operand w)) [] } : Monkey) = md := by
        simp
      rw [hmrec, hmdrec]
      have hsame : (club.set i { m with items := ([] : List Nat) })[d]? = some md := by
        rw [List.getElem?_set_ne (Ne.symm hdi)]
        exact hmd
      rw [list_set_same hsame]

/-- Unfolding step for `MonkeyClub.turns` on an empty index list. -/
theorem turns_nil (fuel : Nat) (club : MonkeyClub) :
    MonkeyClub.turns fuel [] club = some club := rfl

/-- Unfolding step for `MonkeyClub.turns` when the first monkey's turn
succeeds. -/
theorem turns_cons (fuel : Nat) (i : Nat) (is : List Nat) (club club2 : MonkeyClub)
    (h : MonkeyClub.monkey_execute_round fuel club i = some club2) :
    MonkeyClub.turns fuel (i :: is) club = MonkeyClub.turns fuel is club2 := by
  simp [MonkeyClub.turns, h]

/-- C4: in a two-monkey club where monkey `A` (index 0) always throws to
monkey `B` (index 1) and `B` always throws to `A`, one
`MonkeyClub.execute_round` runs `A` then `B` exactly once each: `B`'s
turn processes both its own starting items AND every item `A` threw to it
earlier in the same round (its count grows by `|B.items| + |A.items|`),
while the items `B` throws to `A` are NOT processed by `A` this round
(`A`'s count grows only by `|A.items|`); they sit in `A`'s queue for the
next round. -/
theorem claim_C4 (fuel : Nat) (A B : Monkey)
    (hAt : A.true_destination = 1) (hAf : A.false_destination = 1)
    (hBt : B.true_destination = 0) (hBf : B.false_destination = 0)
    (hAdz : A.divisor ≠ 0) (hBdz : B.divisor ≠ 0)
    (hAnov : ∀ w ∈ A.items, pyIntDiv3 (applyOperation A.op A.operand w) < 2 ^ 1024)
    (hBnov : ∀ w ∈ B.items ++ A.items.map
        (fun w => pyIntDiv3 (applyOperation A.op A.operand w)),
      pyIntDiv3 (applyOperation B.op B.operand w) < 2 ^ 1024)
    (hfA : A.items.length < fuel)
    (hfB : B.items.length + A.items.length < fuel) :
    MonkeyClub.execute_round fuel [A, B] = some
      [{ A with
          items := (B.items ++ A.items.map
              (fun w => pyIntDiv3 (applyOperation A.op A.operand w))).map
            (fun w => pyIntDiv3 (applyOperation B.op B.operand w)),
          inspections_count := A.inspections_count + A.items.length },
       { B with
          items := [],
          inspections_count := B.inspections_count + (B.items.length + A.items.length) }] := by
  have h1 := turn_single_dest fuel [A, B] 0 0 1 A B rfl rfl hAt hAf (by omega)
    hAdz hAnov (by omega)
  have h2 := turn_single_dest fuel
    (([A, B].set 0 { A with items := [], inspections_count := A.inspections_count + (A.items.length - 0) }).set 1 { B with items := B.items ++ (A.items.drop 0).map (fun w => pyIntDiv3 (applyOperation A.op A.operand w)) })
    0 1 0
    { B with items := B.items ++ (A.items.drop 0).map (fun w => pyIntDiv3 (applyOperation A.op A.operand w)) }
    { A with items := [], inspections_count := A.inspections_count + (A.items.length - 0) }
    rfl rfl hBt hBf (by omega) hBdz hBnov
    (by simp only [List.drop_zero, List.length_append, List.length_map, Nat.sub_zero]; omega)
  rw [show MonkeyClub.execute_round fuel [A, B] = MonkeyClub.turns fuel [0, 1] [A, B] from rfl,
      turns_cons fuel 0 [1] [A, B] _ h1,
      turns_cons fuel 1 [] _ _ h2,
      turns_nil]
  simp only [List.set_cons_zero, List.set_cons_succ, List.drop_zero, Nat.sub_zero,
    List.nil_append, List.length_append, List.length_map]

set_option maxRecDepth 10000 in
/-- Witness for C4 at a concrete two-monkey club. -/
theorem claim_C4_witness :
    MonkeyClub.execute_round 10
      [⟨"0", [3, 10], Operator.add, Operand.lit 2, 5, 1, 1, 0⟩,
       ⟨"1", [7], Operator.mul, Operand.lit 3, 2, 0, 0, 0⟩] = some
      [⟨"0",
        ([7] ++ [3, 10].map (fun w => pyIntDiv3 (applyOperation Operator.add (Operand.lit 2) w))).map
          (fun w => pyIntDiv3 (applyOperation Operator.mul (Operand.lit 3) w)),
        Operator.add, Operand.lit 2, 5, 1, 1, 0 + 2⟩,
       ⟨"1", [], Operator.mul, Operand.lit 3, 2, 0, 0, 0 + (1 + 2)⟩] :=
  claim_C4 10
    ⟨"0", [3, 10], Operator.add, Operand.lit 2, 5, 1, 1, 0⟩
    ⟨"1", [7], Operator.mul, Operand.lit 3, 2, 0, 0, 0⟩
    rfl rfl rfl rfl (by decide) (by decide) (by decide) (by decide)
    (by decide) (by decide)

/-- C5: `get_monkey_business` reads every monkey's `inspections_count`,
sorts ascending and multiplies the two largest (the last two entries of an
ascending sorted permutation of the counts); with fewer than 2 monkeys it
raises `IndexError` (from `[-1]` on an empty list, or `[-2]` on a
singleton). -/
theorem claim_C5 (club : MonkeyClub) :
    (club.length < 2 →
      MonkeyClub.get_monkey_business club = Except.error PyError.indexError) ∧
    (2 ≤ club.length → ∃ rest a b,
      List.Sorted (· ≤ ·) (rest ++ [a, b]) ∧
      (rest ++ [a, b]).Perm (club.map (fun m => m.inspections_count)) ∧
      MonkeyClub.get_monkey_business club = Except.ok (b * a)) := by
  have hperm := List.perm_insertionSort (· ≤ ·) (club.map (fun m => m.inspections_count))
  have hsort := List.sorted_insertionSort (· ≤ ·) (club.map (fun m => m.inspections_count))
  have hlen : (List.insertionSort (· ≤ ·) (club.map (fun m => m.inspections_count))).length
      = club.length := by
    rw [hperm.length_eq, List.length_map]
  constructor
  · intro hlt
    rcases hshape : List.insertionSort (· ≤ ·) (club.map (fun m => m.inspections_count)) with
      _ | ⟨x, _ | ⟨y, t⟩⟩
    · simp [MonkeyClub.get_monkey_business, hshape]
    · simp [MonkeyClub.get_monkey_business, hshape]
    · rw [hshape] at hlen
      simp at hlen
      omega
  · intro hge
    rcases hrev : (List.insertionSort (· ≤ ·) (club.map (fun m => m.inspections_count))).reverse
      with _ | ⟨b, _ | ⟨a, r⟩⟩
    · have := congrArg List.length hrev
      simp only [List.length_reverse, hlen, List.length_nil] at this
      omega
    · have := congrArg List.length hrev
      simp only [List.length_reverse, hlen, List.length_cons, List.length_nil] at this
      omega
    · have hseq : List.insertionSort (· ≤ ·) (club.map (fun m => m.inspections_count))
          = r.reverse ++ [a, b] := by
        rw [← List.reverse_reverse (List.insertionSort (· ≤ ·)
          (club.map (fun m => m.inspections_count))), hrev]
        simp
      have h1 : (r.reverse ++ [a, b]).getLast? = some b := by
        rw [show r.reverse ++ [a, b] = (r.reverse ++ [a]) ++ [b] by simp]
        exact List.getLast?_concat _
      have h2 : (r.reverse ++ [a, b]).dropLast.getLast? = some a := by
        rw [show r.reverse ++ [a, b] = (r.reverse ++ [a]) ++ [b] by simp,
          List.dropLast_concat]
        exact List.getLast?_concat _
      refine ⟨r.reverse, a, b, ?_, ?_, ?_⟩
      · rw [← hseq]
        exact hsort
      · rw [← hseq]
        exact hperm
      · simp [MonkeyClub.get_monkey_business, hseq, h1, h2]

/-- Witness for C5: a concrete club with two monkeys. -/
theorem claim_C5_witness :
    ∃ rest a b,
      List.Sorted (· ≤ ·) (rest ++ [a, b]) ∧
      (rest ++ [a, b]).Perm
        (([⟨"0", [], Operator.add, Operand.lit 1, 2, 1, 1, 7⟩,
           ⟨"1", [], Operator.mul, Operand.lit 2, 3, 0, 0, 4⟩] : MonkeyClub).map
          (fun m => m.inspections_count)) ∧
      MonkeyClub.get_monkey_business
        [⟨"0", [], Operator.add, Operand.lit 1, 2, 1, 1, 7⟩,
         ⟨"1", [], Operator.mul, Operand.lit 2, 3, 0, 0, 4⟩] = Except.ok (b * a) :=
  (claim_C5
    [⟨"0", [], Operator.add, Operand.lit 1, 2, 1, 1, 7⟩,
     ⟨"1", [], Operator.mul, Operand.lit 2, 3, 0, 0, 4⟩]).2 (by decide)

/-- C6 (amended): (a) interpreting a six-line chunk succeeds exactly when
every line matches its grammar, so a chunk with any malformed line makes
`Monkey.__init__` raise; (b) the first failing chunk's exception
propagates out of `initialize_monkey_club` unchanged — the whole run
aborts with it, with no partial recovery.  (The exception carries the
offending line only when the starting-items line is the malformed one;
the other five line grammars fail with a bare `AttributeError`, as the
companion counterexample shows.) -/
theorem claim_C6 :
    (∀ l0 l1 l2 l3 l4 l5 : String,
      exceptIsOk (parseMonkey [l0, l1, l2, l3, l4, l5]) = true ↔
        ((matchMonkeyIdLine l0).isSome = true ∧ (matchStartingItems l1).isSome = true ∧
         (matchOperation l2).isSome = true ∧ (matchTest l3).isSome = true ∧
         (matchIfTrue l4).isSome = true ∧ (matchIfFalse l5).isSome = true)) ∧
    (∀ (shared : List Monkey) (pre : List (List String)) (chunk : List String)
       (post : List (List String)) (e : PyError),
      parseMonkey chunk = Except.error e →
      (∀ c ∈ pre, exceptIsOk (parseMonkey c) = true) →
      build_monkey_club shared (pre ++ chunk :: post) = Except.error e) := by
  constructor
  · intro l0 l1 l2 l3 l4 l5
    rcases h0 : matchMonkeyIdLine l0 with _ | id0 <;>
    rcases h1 : matchStartingItems l1 with _ | it1 <;>
    rcases h2 : matchOperation l2 with _ | op2 <;>
    rcases h3 : matchTest l3 with _ | d3 <;>
    rcases h4 : matchIfTrue l4 with _ | t4 <;>
    rcases h5 : matchIfFalse l5 with _ | f5 <;>
    simp [parseMonkey, exceptIsOk, h0, h1, h2, h3, h4, h5]
  · intro shared pre
    induction pre generalizing shared with
    | nil =>
      intro chunk post e hchunk _
      simp [build_monkey_club, hchunk]
    | cons c pre ih =>
      intro chunk post e hchunk hall
      have hc := hall c (List.mem_cons_self c pre)
      rcases hcp : parseMonkey c with ec | mc
      · rw [hcp] at hc
        simp [exceptIsOk] at hc
      · rw [List.cons_append]
        simp only [build_monkey_club, hcp]
        exact ih (shared ++ [mc]) chunk post e hchunk
          (fun c' hc' => hall c' (List.mem_cons_of_mem c hc'))

/-- Witness for C6: a club built from one good chunk and one chunk with a
malformed Operation line aborts with the `AttributeError` of that chunk. -/
theorem claim_C6_witness :
    build_monkey_club []
      [["Monkey 0:", "Starting items: 1, 2", "Operation: new = old * 19",
        "Test: divisible by 5", "If true: throw to monkey 1", "If false: throw to monkey 0"],
       ["Monkey 1:", "Starting items: 3", "Operation: nonsense",
        "Test: divisible by 5", "If true: throw to monkey 1", "If false: throw to monkey 0"]]
      = Except.error PyError.attributeError :=
  claim_C6.2 []
    [["Monkey 0:", "Starting items: 1, 2", "Operation: new = old * 19",
      "Test: divisible by 5", "If true: throw to monkey 1", "If false: throw to monkey 0"]]
    ["Monkey 1:", "Starting items: 3", "Operation: nonsense",
     "Test: divisible by 5", "If true: throw to monkey 1", "If false: throw to monkey 0"]
    [] PyError.attributeError (by decide) (by decide)

/-- Counterexample for C6 as stated: a six-line chunk whose Operation
line is malformed fails with a bare `AttributeError` (from `m.group(1)`
on `None`), which does NOT carry the offending line — only the
starting-items grammar failure (an `assert m, line`) reports the line. -/
theorem claim_C6_cex :
    parseMonkey
      ["Monkey 0:", "Starting items: 1, 2", "Operation: nonsense",
       "Test: divisible by 5", "If true: throw to monkey 1", "If false: throw to monkey 0"]
      = Except.error PyError.attributeError ∧
    PyError.attributeError ≠ PyError.assertionFailed (some "Operation: nonsense") := by
  constructor
  · decide
  · decide

/-- Appending behaviour of `initialize_monkey_club`: it adds the monkeys parsed from its chunks,
in order, after whatever the list it starts from already contains. -/
theorem build_monkey_club_append :
    ∀ (chunks : List (List String)) (shared club : List Monkey),
      build_monkey_club shared chunks = Except.ok club →
      ∃ newMs, club = shared ++ newMs ∧
        List.Forall₂ (fun c m => parseMonkey c = Except.ok m) chunks newMs := by
  intro chunks
  induction chunks with
  | nil =>
    intro shared club h
    refine ⟨[], ?_, List.Forall₂.nil⟩
    simp only [build_monkey_club] at h
    cases h
    simp
  | cons c cs ih =>
    intro shared club h
    rcases hcp : parseMonkey c with e | m
    · simp only [build_monkey_club, hcp] at h
      exact absurd h (by simp)
    · simp only [build_monkey_club, hcp] at h
      obtain ⟨newMs, heq, hf⟩ := ih (shared ++ [m]) club h
      refine ⟨m :: newMs, ?_, List.Forall₂.cons hcp hf⟩
      rw [heq, List.append_assoc, List.singleton_append]

/-- C8: every `MonkeyClub()` built without an explicit `monkeys` argument
shares the single mutable default list, so a second
`initialize_monkey_club` call in the same process returns a club whose
sequence is the first call's monkeys followed by the newly parsed ones,
and those earlier monkeys contribute their entries to the inspection-count
vector read by rounds and scoring. -/
theorem claim_C8 (chunks1 chunks2 : List (List String)) (club1 club2 : MonkeyClub)
    (h1 : build_monkey_club [] chunks1 = Except.ok club1)
    (h2 : build_monkey_club club1 chunks2 = Except.ok club2) :
    ∃ newMs, club2 = club1 ++ newMs ∧
      List.Forall₂ (fun c m => parseMonkey c = Except.ok m) chunks2 newMs ∧
      club2.map (fun m => m.inspections_count)
        = club1.map (fun m => m.inspections_count)
          ++ newMs.map (fun m => m.inspections_count) := by
  obtain ⟨newMs, heq, hf⟩ := build_monkey_club_append chunks2 club1 club2 h2
  exact ⟨newMs, heq, hf, by rw [heq, List.map_append]⟩

/-- Witness for C8: two single-chunk initialisations in one process. -/
theorem claim_C8_witness :
    ∃ newMs,
      ([⟨"0", [79, 98], Operator.mul, Operand.lit 19, 23, 2, 3, 0⟩,
        ⟨"1", [54], Operator.add, Operand.lit 6, 19, 2, 0, 0⟩] : MonkeyClub)
        = [⟨"0", [79, 98], Operator.mul, Operand.lit 19, 23, 2, 3, 0⟩] ++ newMs ∧
      List.Forall₂ (fun c m => parseMonkey c = Except.ok m)
        [["Monkey 1:", "Starting items: 54", "Operation: new = old + 6",
          "Test: divisible by 19", "If true: throw to monkey 2", "If false: throw to monkey 0"]]
        newMs ∧
      ([⟨"0", [79, 98], Operator.mul, Operand.lit 19, 23, 2, 3, 0⟩,
        ⟨"1", [54], Operator.add, Operand.lit 6, 19, 2, 0, 0⟩] : MonkeyClub).map
          (fun m => m.inspections_count)
        = ([⟨"0", [79, 98], Operator.mul, Operand.lit 19, 23, 2, 3, 0⟩] : MonkeyClub).map
            (fun m => m.inspections_count)
          ++ newMs.map (fun m => m.inspections_count) :=
  claim_C8
    [["Monkey 0:", "Starting items: 79, 98", "Operation: new = old * 19",
      "Test: divisible by 23", "If true: throw to monkey 2", "If false: throw to monkey 3"]]
    [["Monkey 1:", "Starting items: 54", "Operation: new = old + 6",
      "Test: divisible by 19", "If true: throw to monkey 2", "If false: throw to monkey 0"]]
    [⟨"0", [79, 98], Operator.mul, Operand.lit 19, 23, 2, 3, 0⟩]
    [⟨"0", [79, 98], Operator.mul, Operand.lit 19, 23, 2, 3, 0⟩,
     ⟨"1", [54], Operator.add, Operand.lit 6, 19, 2, 0, 0⟩]
    (by decide) (by decide)

/-- The function `blankSplit` never returns the empty list. -/
theorem blankSplit_ne_nil : ∀ lines : List String, blankSplit lines ≠ [] := by
  intro lines
  cases lines with
  | nil => simp [blankSplit]
  | cons l ls =>
    simp only [blankSplit]
    split <;> simp

/-- The accumulator loop of `load_file_chunks`, characterised against
`blankSplit`: the first pending segment is glued onto the accumulator,
the run succeeds exactly when the final segment is empty, and on success
the flushed chunks are every segment but the last. -/
theorem loadFileChunksAux_eq :
    ∀ (lines : List String) (chunks : List (List String)) (acc : List String),
      loadFileChunksAux chunks acc lines =
        if ((acc ++ (blankSplit lines).headD []) :: (blankSplit lines).tail).getLast?
            = some [] then
          Except.ok
            (chunks ++ ((acc ++ (blankSplit lines).headD []) :: (blankSplit lines).tail).dropLast)
        else Except.error (PyError.assertionFailed none) := by
  intro lines
  induction lines with
  | nil =>
    intro chunks acc
    simp [loadFileChunksAux, blankSplit]
  | cons l ls ih =>
    intro chunks acc
    obtain ⟨h0, t0, hS⟩ := List.exists_cons_of_ne_nil (blankSplit_ne_nil ls)
    by_cases hb : pyStrip l = ""
    · simp only [loadFileChunksAux, hb, ne_eq, not_true_eq_false, ite_false, reduceIte]
      rw [ih (chunks ++ [acc]) []]
      simp [blankSplit, hb, hS]
    · simp only [loadFileChunksAux, hb, ne_eq, not_false_eq_true, ite_true, reduceIte]
      rw [ih chunks (acc ++ [pyStrip l])]
      simp [blankSplit, hb, hS]

/-- C9 (amended): `load_file_chunks` flushes one chunk per BLANK line —
the stripped non-blank lines accumulated since the previous blank line,
so consecutive (or leading) blank lines produce empty chunks — and raises
`AssertionError` exactly when the final segment after the last blank line
is non-empty, i.e. when some non-blank line is not followed by any later
blank line. -/
theorem claim_C9 (lines : List String) :
    load_file_chunks lines =
      if (blankSplit lines).getLast? = some [] then
        Except.ok ((blankSplit lines).dropLast)
      else Except.error (PyError.assertionFailed none) := by
  obtain ⟨h0, t0, hS⟩ := List.exists_cons_of_ne_nil (blankSplit_ne_nil lines)
  rw [show load_file_chunks lines = loadFileChunksAux [] [] lines from rfl,
    loadFileChunksAux_eq]
  simp [hS]

/-- Counterexample for C9 as stated: on the lines `["a\n", "\n", "\n"]`
there is exactly one maximal run of non-blank lines (so the claim
predicts the single chunk `[["a"]]`), but the code flushes one chunk per
blank line and returns `[["a"], []]` — the second, empty chunk comes from
the consecutive blank line. -/
theorem claim_C9_cex :
    load_file_chunks ["a\n", "\n", "\n"] = Except.ok [["a"], []] ∧
    c9ClaimChunks ["a\n", "\n", "\n"] = [["a"]] ∧
    ([["a"], []] : List (List String)) ≠ [["a"]] :=
  ⟨by decide, by decide, by decide⟩

/-- Lookup in two pointwise-related lists: both out of range, or both hits
with related values. -/
theorem forall2_getElem? {R : Monkey → Monkey → Prop} :
    ∀ {l l' : MonkeyClub}, List.Forall₂ R l l' → ∀ i : Nat,
      (l[i]? = none ∧ l'[i]? = none) ∨
      (∃ a b, l[i]? = some a ∧ l'[i]? = some b ∧ R a b) := by
  intro l l' h
  induction h with
  | nil => intro i; left; simp
  | @cons a b l l' hab _ ih =>
    intro i
    cases i with
    | zero => right; exact ⟨a, b, by simp, by simp, hab⟩
    | succ n => simpa using ih n

/-- Updating one index with `List.set` preserves pointwise relatedness. -/
theorem forall2_set {R : Monkey → Monkey → Prop} :
    ∀ {l l' : MonkeyClub}, List.Forall₂ R l l' → ∀ (i : Nat) (a b : Monkey), R a b →
      List.Forall₂ R (l.set i a) (l'.set i b) := by
  intro l l' h
  induction h with
  | nil => intro i a b _; simp [List.Forall₂.nil]
  | @cons x y l l' hxy hrest ih =>
    intro i a b hab
    cases i with
    | zero => exact List.Forall₂.cons hab hrest
    | succ n => exact List.Forall₂.cons hxy (ih n a b hab)

/-- Id-insensitivity of `Monkey._inspect`: on two pointwise
`sameExceptId` clubs it fails together or succeeds with pointwise
`sameExceptId` results. -/
theorem inspect_rel {c c' : MonkeyClub} (h : List.Forall₂ sameExceptId c c') (i w : Nat) :
    (MonkeyClub.inspect c i w = none ∧ MonkeyClub.inspect c' i w = none) ∨
    (∃ d d', MonkeyClub.inspect c i w = some d ∧ MonkeyClub.inspect c' i w = some d' ∧
      List.Forall₂ sameExceptId d d') := by
  rcases forall2_getElem? h i with ⟨h1, h2⟩ | ⟨m, m', hm, hm', hR⟩
  · left
    constructor <;> simp [MonkeyClub.inspect, h1, h2]
  · obtain ⟨hit, hop, hoperand, hdiv, htd, hfd, hcnt⟩ := hR
    by_cases hov : 2 ^ 1024 ≤ pyIntDiv3 (applyOperation m.op m.operand w)
    · left
      have hnone : pyTrueDiv3 (applyOperation m.op m.operand w) = none := by
        rw [pyTrueDiv3, if_pos hov]
      have hnone' : pyTrueDiv3 (applyOperation m'.op m'.operand w) = none := by
        rw [← hop, ← hoperand]
        exact hnone
      constructor
      · simp [MonkeyClub.inspect, hm, hnone]
      · simp [MonkeyClub.inspect, hm', hnone']
    · have hsome : pyTrueDiv3 (applyOperation m.op m.operand w)
          = some (pyIntDiv3 (applyOperation m.op m.operand w)) := by
        rw [pyTrueDiv3, if_neg hov]
      have hsome' : pyTrueDiv3 (applyOperation m'.op m'.operand w)
          = some (pyIntDiv3 (applyOperation m.op m.operand w)) := by
        rw [← hop, ← hoperand]
        exact hsome
      by_cases hdz : m.divisor = 0
      · left
        have hdz' : m'.divisor = 0 := by
          rw [← hdiv]
          exact hdz
        constructor
        · simp [MonkeyClub.inspect, hm, hsome, hdz]
        · simp [MonkeyClub.inspect, hm', hsome', hdz']
      · have hdz' : ¬ m'.divisor = 0 := by
          rw [← hdiv]
          exact hdz
        have hrel1 : sameExceptId { m with inspections_count := m.inspections_count + 1 }
            { m' with inspections_count := m'.inspections_count + 1 } :=
          ⟨hit, hop, hoperand, hdiv, htd, hfd, by rw [hcnt]⟩
        have hset1 := forall2_set h i _ _ hrel1
        have hdest2 : (if pyIntDiv3 (applyOperation m.op m.operand w) % m'.divisor = 0
              then m'.true_destination else m'.false_destination)
            = (if pyIntDiv3 (applyOperation m.op m.operand w) % m.divisor = 0
              then m.true_destination else m.false_destination) := by
          rw [← hdiv, ← htd, ← hfd]
        rcases forall2_getElem? hset1
            (if pyIntDiv3 (applyOperation m.op m.operand w) % m.divisor = 0
              then m.true_destination else m.false_destination) with
          ⟨g1, g2⟩ | ⟨md, md', hmd, hmd', hRd⟩
        · left
          constructor
          · simp [MonkeyClub.inspect, hm, hsome, hdz, g1]
          · simp only [MonkeyClub.inspect, hm', hsome']
            simp only [hdest2]
            simp [hdz', g2]
        · right
          obtain ⟨hdit, hdop, hdoperand, hddiv, hdtd, hdfd, hdcnt⟩ := hRd
          have e1 : MonkeyClub.inspect c i w = some
              ((c.set i { m with inspections_count := m.inspections_count + 1 }).set
                (if pyIntDiv3 (applyOperation m.op m.operand w) % m.divisor = 0
                  then m.true_destination else m.false_destination)
                { md with items := md.items ++ [pyIntDiv3 (applyOperation m.op m.operand w)] }) := by
            simp [MonkeyClub.inspect, hm, hsome, hdz, hmd]
          have e2 : MonkeyClub.inspect c' i w = some
              ((c'.set i { m' with inspections_count := m'.inspections_count + 1 }).set
                (if pyIntDiv3 (applyOperation m.op m.operand w) % m.divisor = 0
                  then m.true_destination else m.false_destination)
                { md' with items := md'.items ++ [pyIntDiv3 (applyOperation m.op m.operand w)] }) := by
            simp only [MonkeyClub.inspect, hm', hsome']
            simp only [hdest2]
            simp [hdz', hmd']
          refine ⟨_, _, e1, e2, ?_⟩
          exact forall2_set hset1 _ _ _
            ⟨by rw [hdit], hdop, hdoperand, hddiv, hdtd, hdfd, hdcnt⟩

/-- The whole item loop is insensitive to monkey ids. -/
theorem turn_rel :
    ∀ (fuel : Nat) {c c' : MonkeyClub}, List.Forall₂ sameExceptId c c' →
      ∀ (i cursor : Nat),
      (MonkeyClub.turn fuel c i cursor = none ∧ MonkeyClub.turn fuel c' i cursor = none) ∨
      (∃ d d', MonkeyClub.turn fuel c i cursor = some d ∧
        MonkeyClub.turn fuel c' i cursor = some d' ∧ List.Forall₂ sameExceptId d d') := by
  intro fuel
  induction fuel with
  | zero => intro c c' h i cursor; left; exact ⟨rfl, rfl⟩
  | succ fuel ih =>
    intro c c' h i cursor
    rcases forall2_getElem? h i with ⟨h1, h2⟩ | ⟨m, m', hm, hm', hR⟩
    · left
      constructor <;> simp [MonkeyClub.turn, h1, h2]
    · have hit : m.items = m'.items := hR.1
      rcases hcur : m.items[cursor]? with _ | w
      · have hcur' : m'.items[cursor]? = none := by rw [← hit]; exact hcur
        right
        refine ⟨c.set i { m with items := [] }, c'.set i { m' with items := [] },
          by simp [MonkeyClub.turn, hm, hcur], by simp [MonkeyClub.turn, hm', hcur'], ?_⟩
        obtain ⟨_, hop, hoperand, hdiv, htd, hfd, hcnt⟩ := hR
        exact forall2_set h i _ _ ⟨rfl, hop, hoperand, hdiv, htd, hfd, hcnt⟩
      · have hcur' : m'.items[cursor]? = some w := by rw [← hit]; exact hcur
        rcases inspect_rel h i w with ⟨g1, g2⟩ | ⟨d, d', hd, hd', hrel⟩
        · left
          constructor
          · simp [MonkeyClub.turn, hm, hcur, g1]
          · simp [MonkeyClub.turn, hm', hcur', g2]
        · rcases ih hrel i (cursor + 1) with ⟨t1, t2⟩ | ⟨e, e', he, he', hrel2⟩
          · left
            constructor
            · simp [MonkeyClub.turn, hm, hcur, hd, t1]
            · simp [MonkeyClub.turn, hm', hcur', hd', t2]
          · right
            refine ⟨e, e', ?_, ?_, hrel2⟩
            · simp [MonkeyClub.turn, hm, hcur, hd, he]
            · simp [MonkeyClub.turn, hm', hcur', hd', he']

/-- One whole round (over any index list) is insensitive to monkey ids. -/
theorem turns_rel :
    ∀ (idx : List Nat) (fuel : Nat) {c c' : MonkeyClub},
      List.Forall₂ sameExceptId c c' →
      (MonkeyClub.turns fuel idx c = none ∧ MonkeyClub.turns fuel idx c' = none) ∨
      (∃ d d', MonkeyClub.turns fuel idx c = some d ∧
        MonkeyClub.turns fuel idx c' = some d' ∧ List.Forall₂ sameExceptId d d') := by
  intro idx
  induction idx with
  | nil => intro fuel c c' h; right; exact ⟨c, c', rfl, rfl, h⟩
  | cons i is ih =>
    intro fuel c c' h
    rcases turn_rel fuel h i 0 with ⟨g1, g2⟩ | ⟨d, d', hd, hd', hrel⟩
    · left
      constructor <;>
        simp [MonkeyClub.turns, MonkeyClub.monkey_execute_round, g1, g2]
    · rcases ih fuel hrel with ⟨t1, t2⟩ | ⟨e, e', he, he', hrel2⟩
      · left
        constructor
        · simp [MonkeyClub.turns, MonkeyClub.monkey_execute_round, hd, t1]
        · simp [MonkeyClub.turns, MonkeyClub.monkey_execute_round, hd', t2]
      · right
        refine ⟨e, e', ?_, ?_, hrel2⟩
        · simp [MonkeyClub.turns, MonkeyClub.monkey_execute_round, hd, he]
        · simp [MonkeyClub.turns, MonkeyClub.monkey_execute_round, hd', he']

/-- Round iteration (`run_rounds`) is insensitive to monkey ids. -/
theorem run_rounds_rel :
    ∀ (n fuel : Nat) {c c' : MonkeyClub}, List.Forall₂ sameExceptId c c' →
      (MonkeyClub.run_rounds fuel n c = none ∧ MonkeyClub.run_rounds fuel n c' = none) ∨
      (∃ d d', MonkeyClub.run_rounds fuel n c = some d ∧
        MonkeyClub.run_rounds fuel n c' = some d' ∧ List.Forall₂ sameExceptId d d') := by
  intro n
  induction n with
  | zero => intro fuel c c' h; right; exact ⟨c, c', rfl, rfl, h⟩
  | succ n ih =>
    intro fuel c c' h
    have hlen : c.length = c'.length := h.length_eq
    rcases turns_rel (List.range c.length) fuel h with ⟨g1, g2⟩ | ⟨d, d', hd, hd', hrel⟩
    · left
      constructor
      · simp [MonkeyClub.run_rounds, MonkeyClub.execute_round, g1]
      · simp [MonkeyClub.run_rounds, MonkeyClub.execute_round, ← hlen, g2]
    · rcases ih fuel hrel with ⟨t1, t2⟩ | ⟨e, e', he, he', hrel2⟩
      · left
        constructor
        · simp [MonkeyClub.run_rounds, MonkeyClub.execute_round, hd, t1]
        · simp [MonkeyClub.run_rounds, MonkeyClub.execute_round, ← hlen, hd', t2]
      · right
        refine ⟨e, e', ?_, ?_, hrel2⟩
        · simp [MonkeyClub.run_rounds, MonkeyClub.execute_round, hd, he]
        · simp [MonkeyClub.run_rounds, MonkeyClub.execute_round, ← hlen, hd', he']

/-- Related clubs have equal inspection-count vectors. -/
theorem counts_eq :
    ∀ {c c' : MonkeyClub}, List.Forall₂ sameExceptId c c' →
      c.map (fun m => m.inspections_count) = c'.map (fun m => m.inspections_count) := by
  intro c c' h
  induction h with
  | nil => rfl
  | @cons a b l l' hab _ ih => simp [ih, hab.2.2.2.2.2.2]

/-- Related clubs have equal monkey-business results. -/
theorem business_eq {c c' : MonkeyClub} (h : List.Forall₂ sameExceptId c c') :
    MonkeyClub.get_monkey_business c = MonkeyClub.get_monkey_business c' := by
  simp only [MonkeyClub.get_monkey_business, counts_eq h]

/-- Interpreting two chunks that differ only in their header line (both
headers well-formed) gives the same outcome up to the stored id string:
the id captured from the `Monkey <id>:` line ends up only in the `id`
field and influences nothing else. -/
theorem parseMonkey_id_map (l0 l0' : String) (rest : List String) (id0 id0' : String)
    (h0 : matchMonkeyIdLine l0 = some id0) (h0' : matchMonkeyIdLine l0' = some id0') :
    parseMonkey (l0' :: rest)
      = (parseMonkey (l0 :: rest)).map (fun m => { m with id := id0' }) := by
  rcases hr0 : rest[0]? with _ | l1
  · simp [parseMonkey, h0, h0', hr0, Except.map]
  · rcases hs1 : matchStartingItems l1 with _ | its
    · simp [parseMonkey, h0, h0', hr0, hs1, Except.map]
    · rcases hr1 : rest[1]? with _ | l2
      · simp [parseMonkey, h0, h0', hr0, hs1, hr1, Except.map]
      · rcases ho2 : matchOperation l2 with _ | op2
        · simp [parseMonkey, h0, h0', hr0, hs1, hr1, ho2, Except.map]
        · rcases hr2 : rest[2]? with _ | l3
          · simp [parseMonkey, h0, h0', hr0, hs1, hr1, ho2, hr2, Except.map]
          · rcases ht3 : matchTest l3 with _ | d3
            · simp [parseMonkey, h0, h0', hr0, hs1, hr1, ho2, hr2, ht3, Except.map]
            · rcases hr3 : rest[3]? with _ | l4
              · simp [parseMonkey, h0, h0', hr0, hs1, hr1, ho2, hr2, ht3, hr3, Except.map]
              · rcases hi4 : matchIfTrue l4 with _ | t4
                · simp [parseMonkey, h0, h0', hr0, hs1, hr1, ho2, hr2, ht3, hr3, hi4,
                    Except.map]
                · rcases hr4 : rest[4]? with _ | l5
                  · simp [parseMonkey, h0, h0', hr0, hs1, hr1, ho2, hr2, ht3, hr3, hi4,
                      hr4, Except.map]
                  · rcases hi5 : matchIfFalse l5 with _ | f5
                    · simp [parseMonkey, h0, h0', hr0, hs1, hr1, ho2, hr2, ht3, hr3, hi4,
                        hr4, hi5, Except.map]
                    · simp [parseMonkey, h0, h0', hr0, hs1, hr1, ho2, hr2, ht3, hr3, hi4,
                        hr4, hi5, Except.map]

/-- Building clubs (`initialize_monkey_club`) on chunk lists related by `chunkRel` fails
identically or produces pointwise `sameExceptId` clubs. -/
theorem build_rel :
    ∀ {chunks chunks' : List (List String)}, List.Forall₂ chunkRel chunks chunks' →
      ∀ {shared shared' : List Monkey}, List.Forall₂ sameExceptId shared shared' →
      (∃ e, build_monkey_club shared chunks = Except.error e ∧
        build_monkey_club shared' chunks' = Except.error e) ∨
      (∃ c c', build_monkey_club shared chunks = Except.ok c ∧
        build_monkey_club shared' chunks' = Except.ok c' ∧
        List.Forall₂ sameExceptId c c') := by
  intro chunks chunks' hrel
  induction hrel with
  | nil =>
    intro shared shared' hsh
    right
    exact ⟨shared, shared', rfl, rfl, hsh⟩
  | @cons c c' cs cs' hcc' _ ih =>
    intro shared shared' hsh
    obtain ⟨htail, hne, hne', hh, hh'⟩ := hcc'
    obtain ⟨b0, t, hc⟩ := List.exists_cons_of_ne_nil hne
    obtain ⟨b0', t', hc'⟩ := List.exists_cons_of_ne_nil hne'
    have ht' : t' = t := by
      have := htail
      rw [hc, hc'] at this
      simpa using this.symm
    subst ht'
    rw [hc] at hh
    rw [hc'] at hh'
    simp only [List.headD] at hh hh'
    obtain ⟨id0, hid0⟩ := Option.isSome_iff_exists.mp hh
    obtain ⟨id0', hid0'⟩ := Option.isSome_iff_exists.mp hh'
    have hmap := parseMonkey_id_map b0 b0' t' id0 id0' hid0 hid0'
    rcases hp : parseMonkey (b0 :: t') with e | m
    · left
      rw [hp, Except.map] at hmap
      refine ⟨e, ?_, ?_⟩
      · rw [hc]
        simp [build_monkey_club, hp]
      · rw [hc']
        simp [build_monkey_club, hmap]
    · rw [hp, Except.map] at hmap
      have hshared2 : List.Forall₂ sameExceptId (shared ++ [m])
          (shared' ++ [{ m with id := id0' }]) := by
        exact List.rel_append hsh
          (List.Forall₂.cons ⟨rfl, rfl, rfl, rfl, rfl, rfl, rfl⟩ List.Forall₂.nil)
      rcases ih hshared2 with ⟨e, he, he'⟩ | ⟨d, d', hd, hd', hrel2⟩
      · left
        refine ⟨e, ?_, ?_⟩
        · rw [hc]
          simp [build_monkey_club, hp, he]
        · rw [hc']
          simp [build_monkey_club, hmap, he']
      · right
        refine ⟨d, d', ?_, ?_, hrel2⟩
        · rw [hc]
          simp [build_monkey_club, hp, hd]
        · rw [hc']
          simp [build_monkey_club, hmap, hd']

/-- C10: the numeral in the `Monkey <id>:` header never influences the
simulation — destinations are resolved purely by list position via
`get_monkey` — so two inputs differing only in their header numerals
yield identical inspection-count vectors and identical monkey-business
results after any number of rounds. -/
theorem claim_C10 (fuel n : Nat) (chunks chunks' : List (List String))
    (club club' : MonkeyClub)
    (hlen : chunks.length = chunks'.length)
    (hzip : ∀ p ∈ chunks.zip chunks', chunkRel p.1 p.2)
    (h : build_monkey_club [] chunks = Except.ok club)
    (h' : build_monkey_club [] chunks' = Except.ok club') :
    (MonkeyClub.run_rounds fuel n club).map (fun c => c.map (fun m => m.inspections_count))
      = (MonkeyClub.run_rounds fuel n club').map
          (fun c => c.map (fun m => m.inspections_count)) ∧
    (MonkeyClub.run_rounds fuel n club).map MonkeyClub.get_monkey_business
      = (MonkeyClub.run_rounds fuel n club').map MonkeyClub.get_monkey_business := by
  have hrel : List.Forall₂ chunkRel chunks chunks' :=
    List.forall₂_iff_zip.mpr ⟨hlen, fun hab => hzip _ hab⟩
  rcases build_rel hrel List.Forall₂.nil with ⟨e, he, _⟩ | ⟨c, c', hc, hc', hrel2⟩
  · rw [h] at he
    exact absurd he (by simp)
  · rw [h] at hc
    rw [h'] at hc'
    have hcc : c = club := (Except.ok.inj hc).symm
    have hcc' : c' = club' := (Except.ok.inj hc').symm
    rw [hcc, hcc'] at hrel2
    rcases run_rounds_rel n fuel hrel2 with ⟨g1, g2⟩ | ⟨d, d', hd, hd', hrel3⟩
    · rw [g1, g2]
      exact ⟨rfl, rfl⟩
    · rw [hd, hd']
      exact ⟨by simp [counts_eq hrel3], by simp [business_eq hrel3]⟩

/-- Witness for C10: two single-round runs whose inputs differ only in
the header numerals (`Monkey 7:`/`Monkey 8:` versus
`Monkey 0:`/`Monkey 1:`). -/
theorem claim_C10_witness :
    (MonkeyClub.run_rounds 10 1
        [⟨"7", [5], Operator.mul, Operand.lit 2, 3, 1, 1, 0⟩,
         ⟨"8", [4], Operator.add, Operand.lit 1, 2, 0, 0, 0⟩]).map
        (fun c => c.map (fun m => m.inspections_count))
      = (MonkeyClub.run_rounds 10 1
          [⟨"0", [5], Operator.mul, Operand.lit 2, 3, 1, 1, 0⟩,
           ⟨"1", [4], Operator.add, Operand.lit 1, 2, 0, 0, 0⟩]).map
          (fun c => c.map (fun m => m.inspections_count)) ∧
    (MonkeyClub.run_rounds 10 1
        [⟨"7", [5], Operator.mul, Operand.lit 2, 3, 1, 1, 0⟩,
         ⟨"8", [4], Operator.add, Operand.lit 1, 2, 0, 0, 0⟩]).map
        MonkeyClub.get_monkey_business
      = (MonkeyClub.run_rounds 10 1
          [⟨"0", [5], Operator.mul, Operand.lit 2, 3, 1, 1, 0⟩,
           ⟨"1", [4], Operator.add, Operand.lit 1, 2, 0, 0, 0⟩]).map
          MonkeyClub.get_monkey_business :=
  claim_C10 10 1
    [["Monkey 7:", "Starting items: 5", "Operation: new = old * 2",
      "Test: divisible by 3", "If true: throw to monkey 1", "If false: throw to monkey 1"],
     ["Monkey 8:", "Starting items: 4", "Operation: new = old + 1",
      "Test: divisible by 2", "If true: throw to monkey 0", "If false: throw to monkey 0"]]
    [["Monkey 0:", "Starting items: 5", "Operation: new = old * 2",
      "Test: divisible by 3", "If true: throw to monkey 1", "If false: throw to monkey 1"],
     ["Monkey 1:", "Starting items: 4", "Operation: new = old + 1",
      "Test: divisible by 2", "If true: throw to monkey 0", "If false: throw to monkey 0"]]
    [⟨"7", [5], Operator.mul, Operand.lit 2, 3, 1, 1, 0⟩,
     ⟨"8", [4], Operator.add, Operand.lit 1, 2, 0, 0, 0⟩]
    [⟨"0", [5], Operator.mul, Operand.lit 2, 3, 1, 1, 0⟩,
     ⟨"1", [4], Operator.add, Operand.lit 1, 2, 0, 0, 0⟩]
    (by decide) (by decide) (by decide) (by decide)

set_option maxRecDepth 10000 in
/-- C1: on the four-Monkey sample configuration, `part1` (load, parse, 20
rounds, `get_monkey_business`) produces the inspection counts
[101, 95, 7, 105] and the monkey-business score 10605, the single integer
the program outputs. -/
theorem claim_C1 :
    (part1 1000 [] sampleLines).toOption.map (fun r => (r.2.1, r.2.2))
      = some ([101, 95, 7, 105], 10605) := by
  decide

/-- C2: the worry-reduction step `Item(item/3)` uses Python TRUE division
(binary64 float) followed by `int` truncation, NOT floor division: at the
worry value `3 * 2^52 + 2` the float quotient rounds UP to `2^52 + 1`,
one more than `floor(w / 3) = 2^52`, so the stored result differs from
the floor the spec prescribes. -/
theorem claim_C2 :
    13510798882111490 = 3 * 2 ^ 52 + 2 ∧
    pyIntDiv3 13510798882111490 = 4503599627370497 ∧
    13510798882111490 / 3 = 4503599627370496 :=
  ⟨by decide, by decide, by decide⟩

/-- C7 (amended): `part1` is a pure function of the input lines and of
the state of the shared default monkey list, so two invocations that
start from the SAME shared-list state (e.g. each in a fresh process)
return identical count vectors and scores.  Two invocations within one
process do not, because the first leaves its monkeys in the shared list —
see the companion counterexample. -/
theorem claim_C7 (fuel : Nat) (shared : List Monkey) (lines : List String)
    (r1 r2 : Except PyError (MonkeyClub × List Nat × Nat))
    (h1 : part1 fuel shared lines = r1) (h2 : part1 fuel shared lines = r2) :
    r1 = r2 :=
  h1 ▸ h2

/-- Witness for C7 on the sample input with a fresh shared list. -/
theorem claim_C7_witness :
    part1 1000 [] sampleLines = part1 1000 [] sampleLines :=
  claim_C7 1000 [] sampleLines _ _ rfl rfl

set_option maxRecDepth 10000 in
/-- Counterexample for C7 as stated: running `part1` twice on the same
sample input within one process gives DIFFERENT per-monkey
inspection-count vectors and monkey-business results ([101, 95, 7, 105]
with 10605, then [300, 282, 17, 314, 2, 4, 3, 1] with 94200), because the
second call's club still contains the first call's four monkeys through
the shared mutable default list. -/
theorem claim_C7_cex :
    (part1 1000 [] sampleLines).toOption.map (fun r => r.2)
      = some ([101, 95, 7, 105], 10605) ∧
    (match part1 1000 [] sampleLines with
      | Except.ok r1 => (part1 1000 r1.1 sampleLines).toOption.map (fun r => r.2)
      | Except.error _ => none)
      = some ([300, 282, 17, 314, 2, 4, 3, 1], 94200) ∧
    (([300, 282, 17, 314, 2, 4, 3, 1], 94200) : List Nat × Nat)
      ≠ (([101, 95, 7, 105], 10605) : List Nat × Nat) :=
  ⟨by decide, by decide, by decide⟩
